import Mathlib

/-!
Shallow embedding of the affiliate-reconciliation backend
(`app/services/discrepancy_classifier.py`, `app/services/trust_scoring.py`,
`app/services/reconciliation_engine.py`, `app/services/platform_fetcher.py`,
`app/services/data_quality_validators.py`, `app/utils/metrics.py`,
`app/utils/circuit_breaker.py`, `app/jobs/queue.py`, `app/config.py`)
together with theorems checking the natural-language specification.

Conventions of the embedding:
* Python `int` metric values are `ℕ` where the API schema enforces `ge=0`
  (claimed and platform metrics) and `ℤ` for the generic data-quality
  helpers (whose arguments are plain Python ints).
* Python `float` quantities (percentages, trust scores, wall-clock times in
  seconds since the epoch) are modelled as exact rationals `ℚ`.
* Python `round` (banker's rounding) and `int` (truncation toward zero)
  are modelled explicitly as `pythonRound` / `pythonInt`.
* The two `heapq` heaps of the queue are modelled as lists together with a
  minimum-extraction function: popping a binary min-heap returns a minimal
  element, which is all the code relies on.
-/

namespace AffiliatePlatform

open scoped List

/-! ### Configuration constants (`app/config.py`) -/

/-- `RECONCILIATION_SETTINGS["base_tolerance_pct"]`. -/
def base_tolerance_pct : ℚ := 5/100

/-- `RECONCILIATION_SETTINGS["discrepancy_tiers"]["low_max"]`. -/
def tier_low_max : ℚ := 10/100

/-- `RECONCILIATION_SETTINGS["discrepancy_tiers"]["medium_max"]`. -/
def tier_medium_max : ℚ := 20/100

/-- `RECONCILIATION_SETTINGS["overclaim_threshold_pct"]`. -/
def overclaim_threshold_pct : ℚ := 20/100

/-- `RECONCILIATION_SETTINGS["overclaim_critical_pct"]`. -/
def overclaim_critical_pct : ℚ := 50/100

/-- `RECONCILIATION_SETTINGS["growth_per_hour_pct"]`. -/
def growth_per_hour_pct : ℚ := 10/100

/-- `RECONCILIATION_SETTINGS["growth_cap_hours"]`. -/
def growth_cap_hours : ℕ := 24

/-- `TRUST_SCORING["min_score"]`. -/
def trust_min_score : ℚ := 0

/-- `TRUST_SCORING["max_score"]`. -/
def trust_max_score : ℚ := 1

/-- `CIRCUIT_BREAKER["failure_threshold"]`. -/
def failure_threshold : ℕ := 5

/-- `CIRCUIT_BREAKER["open_cooldown_seconds"]`. -/
def open_cooldown_seconds : ℚ := 300

/-- `CIRCUIT_BREAKER["half_open_probe_count"]`. -/
def half_open_probe_count : ℕ := 3

/-- `BACKOFF_POLICY["max_attempts"]`. -/
def backoff_max_attempts : ℕ := 3

/-- `RETRY_POLICY["missing_platform_data"]["initial_delay_minutes"]`. -/
def missing_initial_delay_minutes : ℕ := 30

/-- `RETRY_POLICY["missing_platform_data"]["max_attempts"]`. -/
def missing_max_attempts : ℕ := 5

/-- `RETRY_POLICY["missing_platform_data"]["window_hours"]`. -/
def missing_window_hours : ℚ := 24

/-- `RETRY_POLICY["incomplete_platform_data"]["max_additional_attempts"]`. -/
def incomplete_max_additional_attempts : ℕ := 1

/-- `DATA_QUALITY_SETTINGS["monotonic_tolerance"]` (default used by
`_rule_non_monotonic`, `0.01`). -/
def monotonic_tolerance : ℚ := 1/100

/-- `QUEUE_SETTINGS["max_in_memory"]`. -/
def queue_max_in_memory : ℕ := 5000

/-! ### Python numeric primitives -/

/-- Python `round(x)` with no digits: round half to even (banker's rounding). -/
def pythonRound (q : ℚ) : ℤ :=
  let f := ⌊q⌋
  let r := q - (f : ℚ)
  if r < 1/2 then f
  else if 1/2 < r then f + 1
  else if f % 2 = 0 then f else f + 1

/-- Python `int(x)` on a number: truncation toward zero. -/
def pythonInt (q : ℚ) : ℤ := if 0 ≤ q then ⌊q⌋ else ⌈q⌉

/-! ### `app/utils/metrics.py` -/

/-- `pct_diff(affiliate_value, platform_value)`: percentage difference
relative to the platform value (`0` when both are zero, `1` when only the
platform value is zero). -/
def pct_diff (affiliate_value platform_value : ℤ) : ℚ :=
  if platform_value = 0 ∧ affiliate_value = 0 then 0
  else if platform_value = 0 then 1
  else |(affiliate_value : ℚ) - (platform_value : ℚ)| / (platform_value : ℚ)

/-- `apply_growth_allowance(platform_value, elapsed_hours, growth_per_hour, cap_hours)`:
clamp the elapsed hours into `[0, cap_hours]` and scale the platform value by
`1 + growth_per_hour * hours`, rounding to an int (Python `int(round(...))`). -/
def apply_growth_allowance (platform_value : ℕ) (elapsed_hours growth_per_hour : ℚ)
    (cap_hours : ℕ) : ℤ :=
  let hours := min (max elapsed_hours 0) (cap_hours : ℚ)
  let allowance_factor := 1 + growth_per_hour * hours
  pythonRound ((platform_value : ℚ) * allowance_factor)

/-! ### Enums (`app/models/db/enums.py`) -/

/-- `ReconciliationStatus` enum. -/
inductive ReconciliationStatus where
  | MATCHED
  | DISCREPANCY_LOW
  | DISCREPANCY_MEDIUM
  | DISCREPANCY_HIGH
  | AFFILIATE_OVERCLAIMED
  | MISSING_PLATFORM_DATA
  | INCOMPLETE_PLATFORM_DATA
  | UNVERIFIABLE
  | SKIPPED_SUSPENDED
deriving DecidableEq

/-- `TrustEvent` enum. -/
inductive TrustEvent where
  | PERFECT_MATCH
  | MINOR_DISCREPANCY
  | MEDIUM_DISCREPANCY
  | HIGH_DISCREPANCY
  | OVERCLAIM
  | IMPOSSIBLE_SUBMISSION
  | MANUAL_ADJUST
deriving DecidableEq

/-! ### `app/services/discrepancy_classifier.py` -/

/-- `ClassificationResult` dataclass. The Python field `missing_fields` is a
`list[str]`; `confidence_ratio` an `Optional[float]`. -/
structure ClassificationResult where
  status : ReconciliationStatus
  trust_event : Option TrustEvent
  views_discrepancy : ℤ
  clicks_discrepancy : ℤ
  conversions_discrepancy : ℤ
  views_diff_pct : Option ℚ
  clicks_diff_pct : Option ℚ
  conversions_diff_pct : Option ℚ
  max_discrepancy_pct : Option ℚ
  discrepancy_level : Option String
  missing_fields : List String
  confidence_ratio : Option ℚ
deriving DecidableEq

/-- One disjunct of the classifier's overclaim / critical conditions:
`disc > 0 and diff_pct is not None and diff_pct >= threshold`. -/
def overclaimHit (disc : ℤ) (diff_pct : Option ℚ) (threshold : ℚ) : Bool :=
  decide (0 < disc) &&
    (match diff_pct with
     | some d => decide (threshold ≤ d)
     | none => false)

/-- The names of metrics that are absent, in the fixed order
views, clicks, conversions (appended by `classify` while counting provided
metrics; the same order is produced by `PlatformFetcher.fetch` for
`partial_missing`). -/
def canonicalMissing (platform_views platform_clicks platform_conversions : Option ℕ) :
    List String :=
  (if platform_views.isSome then [] else ["views"]) ++
  (if platform_clicks.isSome then [] else ["clicks"]) ++
  (if platform_conversions.isSome then [] else ["conversions"])

/-- `classify(...)` from `discrepancy_classifier.py`. `pmiss` is the Python
keyword argument `partial_missing` (already coalesced: the Python default
`None` and `[]` both yield an empty initial list). -/
def classify (claimed_views claimed_clicks claimed_conversions : ℕ)
    (platform_views platform_clicks platform_conversions : Option ℕ)
    (elapsed_hours : ℚ) (pmiss : List String) : ClassificationResult :=
  match platform_views, platform_clicks, platform_conversions with
  | none, none, none =>
      { status := .MISSING_PLATFORM_DATA
        trust_event := none
        views_discrepancy := 0
        clicks_discrepancy := 0
        conversions_discrepancy := 0
        views_diff_pct := none
        clicks_diff_pct := none
        conversions_diff_pct := none
        max_discrepancy_pct := none
        discrepancy_level := none
        missing_fields := ["views", "clicks", "conversions"]
        confidence_ratio := some 0 }
  | _, _, _ =>
      let provided_metrics : ℕ :=
        (if platform_views.isSome then 1 else 0) +
        (if platform_clicks.isSome then 1 else 0) +
        (if platform_conversions.isSome then 1 else 0)
      let missing : List String :=
        pmiss ++ canonicalMissing platform_views platform_clicks platform_conversions
      let confidence_ratio : ℚ := (provided_metrics : ℚ) / 3
      let adj_views : Option ℤ := platform_views.map fun v =>
        apply_growth_allowance v elapsed_hours growth_per_hour_pct growth_cap_hours
      let adj_clicks : Option ℤ := platform_clicks.map fun v =>
        apply_growth_allowance v elapsed_hours growth_per_hour_pct growth_cap_hours
      let adj_conversions : Option ℤ := platform_conversions.map fun v =>
        apply_growth_allowance v elapsed_hours growth_per_hour_pct growth_cap_hours
      let views_discrepancy : ℤ := (claimed_views : ℤ) - adj_views.getD 0
      let clicks_discrepancy : ℤ := (claimed_clicks : ℤ) - adj_clicks.getD 0
      let conversions_discrepancy : ℤ := (claimed_conversions : ℤ) - adj_conversions.getD 0
      let views_diff_pct : Option ℚ := adj_views.map fun a => pct_diff (claimed_views : ℤ) a
      let clicks_diff_pct : Option ℚ := adj_clicks.map fun a => pct_diff (claimed_clicks : ℤ) a
      let conversions_diff_pct : Option ℚ :=
        adj_conversions.map fun a => pct_diff (claimed_conversions : ℤ) a
      let diffs : List ℚ := [views_diff_pct, clicks_diff_pct, conversions_diff_pct].filterMap id
      let max_diff : Option ℚ :=
        match diffs with
        | [] => none
        | h :: t => some (t.foldl max h)
      let stl : ReconciliationStatus × Option TrustEvent × Option String :=
        if provided_metrics = 0 then
          (.MISSING_PLATFORM_DATA, none, none)
        else if provided_metrics < 3 then
          (.INCOMPLETE_PLATFORM_DATA, none, none)
        else
          match max_diff with
          | none => (.MATCHED, some .PERFECT_MATCH, none)
          | some md =>
              if overclaimHit views_discrepancy views_diff_pct overclaim_threshold_pct ||
                 overclaimHit clicks_discrepancy clicks_diff_pct overclaim_threshold_pct ||
                 overclaimHit conversions_discrepancy conversions_diff_pct overclaim_threshold_pct then
                (.AFFILIATE_OVERCLAIMED, some .OVERCLAIM,
                  some (if overclaimHit views_discrepancy views_diff_pct overclaim_critical_pct ||
                           overclaimHit clicks_discrepancy clicks_diff_pct overclaim_critical_pct ||
                           overclaimHit conversions_discrepancy conversions_diff_pct overclaim_critical_pct then
                          "CRITICAL" else "HIGH"))
              else if md ≤ base_tolerance_pct then
                (.MATCHED, some .PERFECT_MATCH, none)
              else if md ≤ tier_low_max then
                (.DISCREPANCY_LOW, some .MINOR_DISCREPANCY, some "LOW")
              else if md ≤ tier_medium_max then
                (.DISCREPANCY_MEDIUM, some .MEDIUM_DISCREPANCY, some "MEDIUM")
              else
                (.DISCREPANCY_HIGH, some .HIGH_DISCREPANCY, some "HIGH")
      { status := stl.1
        trust_event := stl.2.1
        views_discrepancy := views_discrepancy
        clicks_discrepancy := clicks_discrepancy
        conversions_discrepancy := conversions_discrepancy
        views_diff_pct := views_diff_pct
        clicks_diff_pct := clicks_diff_pct
        conversions_diff_pct := conversions_diff_pct
        max_discrepancy_pct := max_diff
        discrepancy_level := stl.2.2
        missing_fields := missing
        confidence_ratio := some confidence_ratio }

example :
    (classify 100 10 1 (some 100) (some 10) (some 1) 0 []).status =
      ReconciliationStatus.MATCHED :=
  of_decide_eq_true (by with_unfolding_all rfl)

example :
    (classify 250 35 4 (some 100) (some 10) (some 1) 0 []).discrepancy_level =
      some "CRITICAL" :=
  of_decide_eq_true (by with_unfolding_all rfl)

example :
    (classify 130 40 100 (some 100) (some 100) (some 100) 0 []).status =
      ReconciliationStatus.AFFILIATE_OVERCLAIMED ∧
    (classify 130 40 100 (some 100) (some 100) (some 100) 0 []).clicks_diff_pct =
      some (3/5) ∧
    (classify 130 40 100 (some 100) (some 100) (some 100) 0 []).discrepancy_level =
      some "HIGH" :=
  of_decide_eq_true (by with_unfolding_all rfl)

/-! ### `app/services/trust_scoring.py` -/

/-- `TRUST_SCORING["events"]` lookup by the event's string value, with the
Python default `0.0` for events absent from the map (`manual_adjust` is the
only such `TrustEvent`). -/
def trustEventDelta : TrustEvent → ℚ
  | .PERFECT_MATCH => 1/100
  | .MINOR_DISCREPANCY => -(1/100)
  | .MEDIUM_DISCREPANCY => -(3/100)
  | .HIGH_DISCREPANCY => -(5/100)
  | .OVERCLAIM => -(10/100)
  | .IMPOSSIBLE_SUBMISSION => -(15/100)
  | .MANUAL_ADJUST => 0

/-- `apply_trust_event(current, event)`: add the configured delta, clamp into
`[min_score, max_score]`, and return `(new_score, effective_delta)` where the
effective delta is recomputed after clamping. -/
def apply_trust_event (current : ℚ) (event : TrustEvent) : ℚ × ℚ :=
  let delta := trustEventDelta event
  let new_score := current + delta
  let clamped := max trust_min_score (min new_score trust_max_score)
  (clamped, clamped - current)

/-! ### `app/services/reconciliation_engine.py` -/

/-- `_schedule_retry(status, attempt_count, submitted_at, now)`.
Datetimes are rationals measuring seconds since the epoch; the Python
`timedelta(minutes=m)` becomes `60 * m` seconds and
`(now - submitted_at).total_seconds() / 3600.0` becomes `(now - sub) / 3600`. -/
def scheduleRetry (status : ReconciliationStatus) (attempt_count : ℕ)
    (submitted_at now : ℚ) : Option ℚ :=
  match status with
  | .MISSING_PLATFORM_DATA =>
      if missing_max_attempts ≤ attempt_count then none
      else if missing_window_hours < (now - submitted_at) / 3600 then none
      else some (now + 60 * ((missing_initial_delay_minutes : ℚ) * (max 1 attempt_count : ℕ)))
  | .INCOMPLETE_PLATFORM_DATA =>
      if attempt_count ≤ 1 + incomplete_max_additional_attempts then some (now + 60 * 15)
      else none
  | _ => none

/-- The terminal statuses of the engine's finalization step
(`terminal_statuses` in `run_reconciliation`). -/
def isTerminalStatus (status : ReconciliationStatus) : Bool :=
  match status with
  | .MATCHED | .AFFILIATE_OVERCLAIMED | .DISCREPANCY_HIGH => true
  | _ => false

/-- The engine's finalization of `post.is_reconciled`: the flag is set to
`True` when the classified status is terminal and no retry was scheduled,
and is left unchanged otherwise (it is never reset to `False`). -/
def updateIsReconciled (old : Bool) (status : ReconciliationStatus)
    (retry_time : Option ℚ) : Bool :=
  if isTerminalStatus status ∧ retry_time = none then true else old

/-- The retry time computed by `run_reconciliation`: `_schedule_retry` is
called with the post-increment attempt count `log.attempt_count = prev + 1`. -/
def engineRetryTime (status : ReconciliationStatus) (prev_attempt_count : ℕ)
    (submitted_at now : ℚ) : Option ℚ :=
  scheduleRetry status (prev_attempt_count + 1) submitted_at now

/-! ### `app/services/data_quality_validators.py` -/

/-- A suspicion flag as produced by the data-quality rules (only the fields
the claims are about: the rule key and the severity). -/
structure DQFlag where
  key : String
  severity : String
deriving DecidableEq

/-- The body of `check(name, new, old)` inside `_rule_non_monotonic`: skip
when the previous value is not positive, otherwise flag a LOW-severity
`{name}_decrease` when `new + int(old * tol) < old`. -/
def decreaseCheck (name : String) (new old : ℤ) : Option DQFlag :=
  if old ≤ 0 then none
  else if new + pythonInt ((old : ℚ) * monotonic_tolerance) < old then
    some ⟨name ++ "_decrease", "LOW"⟩
  else none

/-- `_growth_pct(new, old)`: Python returns `float('inf')` when `old <= 0 < new`. -/
inductive Growth where
  | inf
  | val (g : ℚ)
deriving DecidableEq

/-- `_growth_pct(new, old)`. -/
def growthPct (new old : ℤ) : Growth :=
  if old ≤ 0 then (if 0 < new then .inf else .val 0)
  else .val (((new : ℚ) - (old : ℚ)) / (old : ℚ))

/-- The body of `maybe(name, new, old, cfg_key)` inside `_rule_spike`: an
infinite growth ratio is skipped; a finite ratio above the threshold yields
a HIGH-severity `{name}_spike` flag. -/
def spikeCheck (name : String) (new old : ℤ) (threshold : ℚ) : Option DQFlag :=
  match growthPct new old with
  | .inf => none
  | .val g => if threshold < g then some ⟨name ++ "_spike", "HIGH"⟩ else none

/-! ### `app/utils/circuit_breaker.py` -/

/-- The `state` string of `BreakerState`. -/
inductive BreakerPhase where
  | CLOSED
  | OPEN
  | HALF_OPEN
deriving DecidableEq

/-- `BreakerState` dataclass (per-platform record). -/
structure BreakerState where
  failures : ℕ
  phase : BreakerPhase
  opened_at : Option ℚ
  half_open_probes : ℕ
deriving DecidableEq

/-- The default `BreakerState()` created by `CircuitBreaker._get` for a
platform key that has not been seen yet. -/
def initialBreaker : BreakerState :=
  { failures := 0, phase := .CLOSED, opened_at := none, half_open_probes := 0 }

/-- The HALF_OPEN block of `CircuitBreaker.allow_call` (also reached from the
OPEN block right after the cooldown transition): deny once the probe budget
is exhausted, otherwise count a probe and allow. -/
def halfOpenStep (s : BreakerState) : (Bool × Option String) × BreakerState :=
  if half_open_probe_count ≤ s.half_open_probes then
    ((false, some "half_open_probe_exhausted"), s)
  else
    ((true, none), { s with half_open_probes := s.half_open_probes + 1 })

/-- `CircuitBreaker.allow_call(platform)` on the state of one platform key,
with the current wall-clock time passed explicitly. Returns the Python pair
`(allowed, reason)` together with the mutated state. -/
def allowCall (now : ℚ) (s : BreakerState) : (Bool × Option String) × BreakerState :=
  match s.phase with
  | .CLOSED => ((true, none), s)
  | .OPEN =>
      match s.opened_at with
      | some t =>
          if open_cooldown_seconds ≤ now - t then
            halfOpenStep { s with phase := .HALF_OPEN, half_open_probes := 0 }
          else ((false, some "circuit_open"), s)
      | none => ((false, some "circuit_open"), s)
  | .HALF_OPEN => halfOpenStep s

/-- `CircuitBreaker.record_failure(platform)` on one platform key's state. -/
def recordFailure (now : ℚ) (s : BreakerState) : BreakerState :=
  let s1 := { s with failures := s.failures + 1 }
  if s1.phase = .CLOSED ∧ failure_threshold ≤ s1.failures then
    { s1 with phase := .OPEN, opened_at := some now }
  else if s1.phase = .HALF_OPEN then
    { s1 with phase := .OPEN, opened_at := some now }
  else s1

/-- `CircuitBreaker.record_success(platform)` on one platform key's state. -/
def recordSuccess (s : BreakerState) : BreakerState :=
  let s1 := { s with failures := 0 }
  match s1.phase with
  | .OPEN | .HALF_OPEN =>
      { s1 with phase := .CLOSED, opened_at := none, half_open_probes := 0 }
  | .CLOSED => s1

/-- A sequence of consecutive `record_failure` calls at the given times
(earliest first), with no intervening `record_success`. -/
def applyFailures (times : List ℚ) (s : BreakerState) : BreakerState :=
  times.foldl (fun st t => recordFailure t st) s

/-! ### `app/services/platform_fetcher.py` -/

/-- `FetchOutcome` dataclass. `pmissing` is the Python field
`partial_missing`; `platform_metrics` maps the three keys to optional ints. -/
structure FetchOutcome where
  success : Bool
  platform_metrics : Option (Option ℕ × Option ℕ × Option ℕ)
  pmissing : List String
  attempts : ℕ
  error_code : Option String
  error_message : Option String
  rate_limited : Bool
deriving DecidableEq

/-- The result of `PlatformFetcher._call_adapter` for one attempt: either a
metrics dict (each of the three keys possibly absent / None) or a classified
error `(error_code, error_message)`. -/
inductive AdapterResult where
  | ok (views clicks conversions : Option ℕ)
  | err (code msg : String)
deriving DecidableEq

/-- The retry loop of `PlatformFetcher.fetch` after the circuit breaker has
allowed the call. `fuel` is the number of attempts still available
(`max_attempts - attempts`); the adapter is a function of the attempt number
(1-based), which makes each attempt's outcome explicit. Backoff sleeping
does not affect the outcome and is not modelled. -/
def fetchLoop (adapter : ℕ → AdapterResult) (now : ℚ) :
    ℕ → ℕ → Option String → Option String → Bool → BreakerState →
    FetchOutcome × BreakerState
  | 0, attempts, last_code, last_msg, rate_limited, bs =>
      (⟨false, none, ["views", "clicks", "conversions"], attempts,
        last_code, last_msg, rate_limited⟩, bs)
  | fuel + 1, attempts, _, _, rate_limited, bs =>
      let attempts' := attempts + 1
      match adapter attempts' with
      | .ok v c x =>
          let bs' := recordSuccess bs
          let missing := (if v.isSome then [] else ["views"]) ++
            (if c.isSome then [] else ["clicks"]) ++
            (if x.isSome then [] else ["conversions"])
          (⟨true, some (v, c, x), missing, attempts', none, none, false⟩, bs')
      | .err code msg =>
          let rate_limited' := rate_limited || code = "rate_limited"
          let bs' := recordFailure now bs
          if code = "auth_error" then
            (⟨false, none, ["views", "clicks", "conversions"], attempts',
              some code, some msg, rate_limited'⟩, bs')
          else if fuel = 0 then
            (⟨false, none, ["views", "clicks", "conversions"], attempts',
              some code, some msg, rate_limited'⟩, bs')
          else
            fetchLoop adapter now fuel attempts' (some code) (some msg) rate_limited' bs'

/-- `PlatformFetcher.fetch(platform_name, post_url)` for one platform key:
ask the breaker first; a denial produces the immediate failure outcome with
no adapter call; otherwise run the retry loop with
`max_attempts = BACKOFF_POLICY["max_attempts"]`. -/
def fetch (adapter : ℕ → AdapterResult) (now : ℚ) (bs : BreakerState) :
    FetchOutcome × BreakerState :=
  let ((allow, reason), bs') := allowCall now bs
  if allow then fetchLoop adapter now backoff_max_attempts 0 none none false bs'
  else
    (⟨false, none, ["views", "clicks", "conversions"], 0, reason,
      some ("Circuit breaker denies call: " ++ reason.getD "None"), false⟩, bs')

/-! ### `app/jobs/queue.py`

The two `heapq` heaps are modelled as lists of `QItem` plus minimum
extraction: popping a binary min-heap returns a minimal element of its
multiset of entries, and the heap keys used by the code are
`(priority_value, seq)` for the ready heap and `(ready_at, priority_value,
seq)` for the scheduled heap. `_promote_scheduled` pops the scheduled heap
while its top has `ready_at ≤ now`, which moves exactly the scheduled
entries with `ready_at ≤ now` because that heap is keyed by `ready_at`
first. Jobs are identified with their `QItem` records (the code returns
`item.job`). -/

/-- `QueueItem` (the fields the dequeue order depends on, plus `ready_at`). -/
structure QItem where
  priority_value : ℤ
  seq : ℕ
  ready_at : ℚ
deriving DecidableEq

/-- Strict lexicographic order on the ready-heap key `(priority_value, seq)`:
lower priority value first, FIFO by sequence number within a priority. -/
def keyLt (a b : QItem) : Prop :=
  a.priority_value < b.priority_value ∨
    (a.priority_value = b.priority_value ∧ a.seq < b.seq)

instance : DecidablePred fun p : QItem × QItem => keyLt p.1 p.2 := fun _ => by
  unfold keyLt; infer_instance

instance (a b : QItem) : Decidable (keyLt a b) := by
  unfold keyLt; infer_instance

/-- The state of `PriorityDelayQueue`: the two heaps as lists and the
sequence counter. -/
structure QueueState where
  ready : List QItem
  sched : List QItem
  seqCtr : ℕ
deriving DecidableEq

/-- The fresh queue. -/
def emptyQueue : QueueState := { ready := [], sched := [], seqCtr := 0 }

/-- `QUEUE_SETTINGS["priorities"]`: label to numeric priority (lower =
higher priority). -/
def priorityMap (label : String) : Option ℤ :=
  if label = "high" then some 0
  else if label = "normal" then some 5
  else if label = "low" then some 10
  else none

/-- All queued items (ready plus scheduled). -/
def allItems (s : QueueState) : List QItem := s.ready ++ s.sched

/-- `PriorityDelayQueue.enqueue(job, priority, delay_seconds)` at wall-clock
time `now`. A full queue (`OverflowError`) or an unknown priority label
(`ValueError`) raises before any mutation, leaving the state unchanged. -/
def enqueue (now : ℚ) (label : String) (delay_seconds : ℚ) (s : QueueState) :
    QueueState :=
  if queue_max_in_memory ≤ s.ready.length + s.sched.length then s
  else
    match priorityMap label with
    | none => s
    | some pv =>
        let ready_at := now + max 0 delay_seconds
        let seq := s.seqCtr + 1
        let item : QItem := ⟨pv, seq, ready_at⟩
        if ready_at ≤ now then
          { s with ready := item :: s.ready, seqCtr := seq }
        else
          { s with sched := item :: s.sched, seqCtr := seq }

/-- `PriorityDelayQueue._promote_scheduled` at time `now`: move every
scheduled item whose `ready_at ≤ now` onto the ready heap. -/
def promoteScheduled (now : ℚ) (s : QueueState) : QueueState :=
  { s with
    ready := s.ready ++ s.sched.filter (fun i => decide (i.ready_at ≤ now))
    sched := s.sched.filter (fun i => !decide (i.ready_at ≤ now)) }

/-- Minimum of a list of items in the `(priority_value, seq)` order (the
element `heapq.heappop` returns from the ready heap). -/
def minItem : List QItem → Option QItem
  | [] => none
  | h :: t => some (t.foldl (fun acc i => if keyLt i acc then i else acc) h)

/-- The successful path of `PriorityDelayQueue.dequeue` at time `now`:
promote newly ready scheduled items, then pop the `(priority_value, seq)`
minimum of the ready heap; `none` when nothing is ready (the code then
blocks or returns `None`, neither of which changes which item a successful
dequeue returns). -/
def dequeue (now : ℚ) (s : QueueState) : Option QItem × QueueState :=
  let s' := promoteScheduled now s
  match minItem s'.ready with
  | none => (none, s')
  | some m => (some m, { s' with ready := s'.ready.erase m })

/-- One operation of the queue API. -/
inductive QOp where
  | enq (label : String) (delay_seconds : ℚ)
  | deq
deriving DecidableEq

/-- Execute one timestamped operation. -/
def stepOp (s : QueueState) (top : ℚ × QOp) : QueueState :=
  match top.2 with
  | .enq label delay => enqueue top.1 label delay s
  | .deq => (dequeue top.1 s).2

/-- Execute a timestamped operation sequence from the fresh queue. -/
def runTrace (ops : List (ℚ × QOp)) : QueueState := ops.foldl stepOp emptyQueue

/-- The queue invariant at time `now`: every ready item is already due, all
sequence numbers are positive and bounded by the counter, and sequence
numbers are pairwise distinct. -/
def QWF (now : ℚ) (s : QueueState) : Prop :=
  (∀ i ∈ s.ready, i.ready_at ≤ now) ∧
  (∀ i ∈ allItems s, i.seq ≤ s.seqCtr) ∧
  (allItems s).Pairwise (fun a b => a.seq ≠ b.seq)

/-! ## Theorems -/

/-- Adding an integer floor versus adding the rational itself below an
integer bound: for integers `n < m` thresholds these agree. -/
theorem add_floor_lt_iff (n m : ℤ) (x : ℚ) :
    n + ⌊x⌋ < m ↔ (n : ℚ) + x < (m : ℚ) := by
  constructor
  · intro h
    have h1 : (n : ℚ) + (⌊x⌋ : ℚ) + 1 ≤ (m : ℚ) := by exact_mod_cast h
    have h2 : x < (⌊x⌋ : ℚ) + 1 := Int.lt_floor_add_one x
    linarith
  · intro h
    have h1 : (⌊x⌋ : ℚ) ≤ x := Int.floor_le x
    have h2 : ((n + ⌊x⌋ : ℤ) : ℚ) < (m : ℚ) := by push_cast; linarith
    exact_mod_cast h2

/-- C3: `apply_trust_event` clips `current + delta` into `[0, 1]`, records the
effective delta `new - current`, keeps every result inside `[0, 1]`, and on the
spec's concrete cases: `0.99` + PERFECT_MATCH gives exactly `(1.00, +0.01)` and
`0.005` + IMPOSSIBLE_SUBMISSION gives `(0.0, -0.005)`. -/
theorem apply_trust_event_clips (current : ℚ) (event : TrustEvent)
    (h0 : 0 ≤ current) (h1 : current ≤ 1) :
    apply_trust_event current event =
      (max 0 (min (current + trustEventDelta event) 1),
       max 0 (min (current + trustEventDelta event) 1) - current) ∧
    0 ≤ (apply_trust_event current event).1 ∧
    (apply_trust_event current event).1 ≤ 1 ∧
    apply_trust_event (99/100) TrustEvent.PERFECT_MATCH = (1, 1/100) ∧
    apply_trust_event (1/200) TrustEvent.IMPOSSIBLE_SUBMISSION = (0, -(1/200)) := by
  refine ⟨rfl, le_max_left _ _, ?_, ?_, ?_⟩
  · have hm : min (current + trustEventDelta event) 1 ≤ 1 := min_le_right _ _
    simpa [apply_trust_event, trust_min_score, trust_max_score] using
      max_le (by norm_num) hm
  · exact of_decide_eq_true (by with_unfolding_all rfl)
  · exact of_decide_eq_true (by with_unfolding_all rfl)

/-- Witness for `apply_trust_event_clips` at `current = 1/2`,
`event = OVERCLAIM`. -/
theorem apply_trust_event_clips_witness :
    0 ≤ (1/2 : ℚ) ∧ (1/2 : ℚ) ≤ 1 ∧
    (apply_trust_event (1/2) TrustEvent.OVERCLAIM =
      (max 0 (min ((1/2 : ℚ) + trustEventDelta .OVERCLAIM) 1),
       max 0 (min ((1/2 : ℚ) + trustEventDelta .OVERCLAIM) 1) - 1/2) ∧
      0 ≤ (apply_trust_event (1/2) TrustEvent.OVERCLAIM).1 ∧
      (apply_trust_event (1/2) TrustEvent.OVERCLAIM).1 ≤ 1 ∧
      apply_trust_event (99/100) TrustEvent.PERFECT_MATCH = (1, 1/100) ∧
      apply_trust_event (1/200) TrustEvent.IMPOSSIBLE_SUBMISSION = (0, -(1/200))) :=
  ⟨of_decide_eq_true (by with_unfolding_all rfl),
   of_decide_eq_true (by with_unfolding_all rfl),
   apply_trust_event_clips (1/2) TrustEvent.OVERCLAIM
     (of_decide_eq_true (by with_unfolding_all rfl))
     (of_decide_eq_true (by with_unfolding_all rfl))⟩

/-- C6: for a MISSING_PLATFORM_DATA classification the engine (which passes
the post-increment attempt count `prev + 1`) schedules no retry when the
attempt count reached `max_attempts = 5` or the elapsed time exceeds
`window_hours = 24`, and otherwise schedules the retry at
`now + initial_delay_minutes * max(1, attempt_count)` minutes. -/
theorem missing_retry_schedule (prev_attempt_count : ℕ) (submitted_at now : ℚ) :
    engineRetryTime .MISSING_PLATFORM_DATA prev_attempt_count submitted_at now =
      (if missing_max_attempts ≤ prev_attempt_count + 1 ∨
          missing_window_hours < (now - submitted_at) / 3600 then
        none
      else
        some (now + 60 * ((missing_initial_delay_minutes : ℚ) *
          ((max 1 (prev_attempt_count + 1) : ℕ) : ℚ)))) := by
  by_cases hA : missing_max_attempts ≤ prev_attempt_count + 1 <;>
    by_cases hW : missing_window_hours < (now - submitted_at) / 3600 <;>
      simp [engineRetryTime, scheduleRetry, hA, hW]

/-- C2 (amended): the engine's finalize step sets `post.is_reconciled` from
`False` to `True` exactly when the classified status is terminal
(MATCHED, AFFILIATE_OVERCLAIMED or DISCREPANCY_HIGH) and no retry was
scheduled; in general the flag is monotone (it is never reset, so it stays
`True` even if a later attempt has a non-terminal status); and `_schedule_retry`
never schedules a retry for a terminal status. -/
theorem is_reconciled_finalize (status : ReconciliationStatus) (retry_time : Option ℚ) :
    (updateIsReconciled false status retry_time = true ↔
      isTerminalStatus status = true ∧ retry_time = none) ∧
    (∀ old : Bool, updateIsReconciled old status retry_time = true ↔
      (old = true ∨ (isTerminalStatus status = true ∧ retry_time = none))) ∧
    (∀ (attempt_count : ℕ) (submitted_at now : ℚ), isTerminalStatus status = true →
      scheduleRetry status attempt_count submitted_at now = none) := by
  refine ⟨?_, ?_, ?_⟩
  · unfold updateIsReconciled
    split_ifs with h
    · simpa using h
    · simpa using h
  · intro old
    unfold updateIsReconciled
    split_ifs with h
    · simp [h]
    · simp [h]
  · intro attempt_count submitted_at now hterm
    cases status <;> simp_all [isTerminalStatus, scheduleRetry]

/-- Witness for `is_reconciled_finalize` at `status = MATCHED`,
`retry_time = none`. -/
theorem is_reconciled_finalize_witness :
    isTerminalStatus .MATCHED = true ∧
    updateIsReconciled false .MATCHED none = true ∧
    scheduleRetry .MATCHED 3 0 100 = none :=
  ⟨rfl,
   (is_reconciled_finalize .MATCHED none).1.mpr ⟨rfl, rfl⟩,
   (is_reconciled_finalize .MATCHED none).2.2 3 0 100 rfl⟩

/-- C2 counterexample: the literal invariant "`is_reconciled = true` iff the
latest attempt's status is terminal with no retry" fails on re-runs: a post
reconciled by a MATCHED attempt keeps `is_reconciled = true` after a later
attempt classified MISSING_PLATFORM_DATA (attempt 2, within window) that
scheduled a retry. -/
theorem is_reconciled_iff_cex :
    updateIsReconciled
        (updateIsReconciled false .MATCHED (engineRetryTime .MATCHED 0 0 0))
        .MISSING_PLATFORM_DATA (engineRetryTime .MISSING_PLATFORM_DATA 1 0 3600) = true ∧
    isTerminalStatus .MISSING_PLATFORM_DATA = false ∧
    engineRetryTime .MISSING_PLATFORM_DATA 1 0 3600 = some 7200 := by
  have hretry : engineRetryTime .MISSING_PLATFORM_DATA 1 0 3600 = some 7200 := by
    unfold engineRetryTime scheduleRetry missing_max_attempts missing_window_hours
      missing_initial_delay_minutes
    norm_num
  refine ⟨?_, rfl, hretry⟩
  rw [hretry]
  rfl

/-- C8: with a positive previous value, `_rule_non_monotonic` emits the
LOW-severity `{metric}_decrease` flag exactly when
`new + old * monotonic_tolerance < old`; Python's `int(...)` truncation of
`old * tol` does not change the comparison because the other operands are
integers. -/
theorem decrease_flag_iff (name : String) (new old : ℤ)
    (hnew : 0 ≤ new) (hold : 0 ≤ old) :
    (decreaseCheck name new old = some ⟨name ++ "_decrease", "LOW"⟩ ↔
      (new : ℚ) + (old : ℚ) * monotonic_tolerance < (old : ℚ)) := by
  unfold decreaseCheck
  by_cases h0 : old ≤ 0
  · have hz : old = 0 := le_antisymm h0 hold
    subst hz
    rw [if_pos le_rfl]
    simp only [monotonic_tolerance]
    constructor
    · intro h; exact absurd h (by simp)
    · intro h
      have : (new : ℚ) < 0 := by push_cast at h; linarith
      have : (0 : ℚ) ≤ (new : ℚ) := by exact_mod_cast hnew
      linarith
  · push_neg at h0
    rw [if_neg (not_le.mpr h0)]
    have hx : (0 : ℚ) ≤ (old : ℚ) * monotonic_tolerance := by
      have : (0 : ℚ) ≤ (old : ℚ) := by exact_mod_cast hold
      unfold monotonic_tolerance
      positivity
    have hint : pythonInt ((old : ℚ) * monotonic_tolerance) =
        ⌊(old : ℚ) * monotonic_tolerance⌋ := by
      unfold pythonInt
      rw [if_pos hx]
    rw [hint]
    by_cases hc : new + ⌊(old : ℚ) * monotonic_tolerance⌋ < old
    · rw [if_pos hc]
      simp only [Option.some.injEq, true_iff]
      exact (add_floor_lt_iff new old _).mp hc
    · rw [if_neg hc]
      constructor
      · intro h; exact absurd h (by simp)
      · intro h
        exact absurd ((add_floor_lt_iff new old _).mpr h) hc

/-- Witness for `decrease_flag_iff` at `views`, `new = 10`, `old = 100`. -/
theorem decrease_flag_iff_witness :
    0 ≤ (10 : ℤ) ∧ 0 ≤ (100 : ℤ) ∧
    (decreaseCheck "views" 10 100 = some ⟨"views_decrease", "LOW"⟩ ↔
      (10 : ℚ) + (100 : ℚ) * monotonic_tolerance < (100 : ℚ)) :=
  ⟨of_decide_eq_true (by with_unfolding_all rfl),
   of_decide_eq_true (by with_unfolding_all rfl),
   decrease_flag_iff "views" 10 100
     (of_decide_eq_true (by with_unfolding_all rfl))
     (of_decide_eq_true (by with_unfolding_all rfl))⟩

/-- C10: when the previous report's value for a metric is zero or negative,
`_rule_spike` never emits a `{metric}_spike` flag, however large the new
claimed value: the growth ratio is infinite (old ≤ 0 < new) and skipped, or
zero (new ≤ 0) and below any non-negative threshold. -/
theorem spike_never_flags_on_zero_base (name : String) (new old : ℤ) (threshold : ℚ)
    (hold : old ≤ 0) (hthr : 0 ≤ threshold) :
    spikeCheck name new old threshold = none := by
  unfold spikeCheck growthPct
  rw [if_pos hold]
  by_cases hp : 0 < new
  · rw [if_pos hp]
  · rw [if_neg hp]
    simp only
    rw [if_neg (not_lt.mpr hthr)]

/-- Witness for `spike_never_flags_on_zero_base` at `views`, `new = 10 ^ 6`,
`old = 0`, default threshold `5.0`. -/
theorem spike_never_flags_on_zero_base_witness :
    (0 : ℤ) ≤ 0 ∧ (0 : ℚ) ≤ 5 ∧ spikeCheck "views" 1000000 0 5 = none :=
  ⟨of_decide_eq_true (by with_unfolding_all rfl),
   of_decide_eq_true (by with_unfolding_all rfl),
   spike_never_flags_on_zero_base "views" 1000000 0 5
     (of_decide_eq_true (by with_unfolding_all rfl))
     (of_decide_eq_true (by with_unfolding_all rfl))⟩

/-- C5: starting from a fresh breaker state, five (= `failure_threshold`)
consecutive `record_failure` calls with no intervening `record_success` open
the breaker (opened at the time of the fifth failure); while the breaker is
OPEN every `allow_call` before the 300-second cooldown is denied with reason
`circuit_open` and leaves the state unchanged (so repeated calls keep being
denied); once the cooldown has elapsed, `allow_call` transitions the breaker
to HALF_OPEN (probe count reset, first probe consumed) and is allowed. -/
theorem breaker_opens_and_cools_down (t1 t2 t3 t4 t5 : ℚ) :
    applyFailures [t1, t2, t3, t4, t5] initialBreaker =
      { failures := 5, phase := .OPEN, opened_at := some t5, half_open_probes := 0 } ∧
    (∀ t : ℚ, t - t5 < open_cooldown_seconds →
      allowCall t (applyFailures [t1, t2, t3, t4, t5] initialBreaker) =
        ((false, some "circuit_open"),
         applyFailures [t1, t2, t3, t4, t5] initialBreaker)) ∧
    (∀ t : ℚ, open_cooldown_seconds ≤ t - t5 →
      allowCall t (applyFailures [t1, t2, t3, t4, t5] initialBreaker) =
        ((true, none),
         { failures := 5, phase := .HALF_OPEN, opened_at := some t5,
           half_open_probes := 1 })) := by
  have hstate : applyFailures [t1, t2, t3, t4, t5] initialBreaker =
      { failures := 5, phase := .OPEN, opened_at := some t5, half_open_probes := 0 } := rfl
  refine ⟨hstate, ?_, ?_⟩
  · intro t ht
    rw [hstate]
    unfold allowCall
    simp only
    rw [if_neg (not_le.mpr ht)]
  · intro t ht
    rw [hstate]
    unfold allowCall
    simp only
    rw [if_pos ht]
    rfl

/-- Witness for `breaker_opens_and_cools_down` with all five failures at
time 0, a denied call at time 100 and an allowed call at time 400. -/
theorem breaker_opens_and_cools_down_witness :
    ((100 : ℚ) - 0 < open_cooldown_seconds ∧
      allowCall 100 (applyFailures [0, 0, 0, 0, 0] initialBreaker) =
        ((false, some "circuit_open"),
         applyFailures [0, 0, 0, 0, 0] initialBreaker)) ∧
    (open_cooldown_seconds ≤ (400 : ℚ) - 0 ∧
      allowCall 400 (applyFailures [0, 0, 0, 0, 0] initialBreaker) =
        ((true, none),
         { failures := 5, phase := .HALF_OPEN, opened_at := some 0,
           half_open_probes := 1 })) :=
  ⟨⟨of_decide_eq_true (by with_unfolding_all rfl),
    (breaker_opens_and_cools_down 0 0 0 0 0).2.1 100
      (of_decide_eq_true (by with_unfolding_all rfl))⟩,
   ⟨of_decide_eq_true (by with_unfolding_all rfl),
    (breaker_opens_and_cools_down 0 0 0 0 0).2.2 400
      (of_decide_eq_true (by with_unfolding_all rfl))⟩⟩

/-- C7 (amended): whenever the circuit breaker denies `allow_call`,
`PlatformFetcher.fetch` returns the immediate failure outcome with
`error_code` equal to the breaker's denial reason (`circuit_open` when the
breaker is OPEN within its cooldown), `partial_missing =
[views, clicks, conversions]`, `attempts = 0`, and makes no adapter call:
the result is the same for every adapter. -/
theorem fetch_denied_is_missing (adapter : ℕ → AdapterResult) (now : ℚ)
    (bs : BreakerState) (hdeny : (allowCall now bs).1.1 = false) :
    fetch adapter now bs =
      (⟨false, none, ["views", "clicks", "conversions"], 0, (allowCall now bs).1.2,
        some ("Circuit breaker denies call: " ++ ((allowCall now bs).1.2).getD "None"),
        false⟩,
       (allowCall now bs).2) ∧
    (∀ adapter2 : ℕ → AdapterResult, fetch adapter2 now bs = fetch adapter now bs) ∧
    (bs.phase = .OPEN →
      (∀ t0 : ℚ, bs.opened_at = some t0 → now - t0 < open_cooldown_seconds) →
      (allowCall now bs).1.2 = some "circuit_open") := by
  refine ⟨?_, ?_, ?_⟩
  · unfold fetch
    rcases hAC : allowCall now bs with ⟨⟨allow, reason⟩, bs'⟩
    rw [hAC] at hdeny
    simp only at hdeny
    subst hdeny
    simp
  · intro adapter2
    unfold fetch
    rcases hAC : allowCall now bs with ⟨⟨allow, reason⟩, bs'⟩
    rw [hAC] at hdeny
    simp only at hdeny
    subst hdeny
    simp
  · intro hphase hcool
    rcases bs with ⟨f, ph, oa, pr⟩
    simp only at hphase
    subst hphase
    rcases oa with _ | t0
    · rfl
    · have hc := hcool t0 rfl
      simp only [allowCall]
      rw [if_neg (not_le.mpr hc)]

/-- Witness for `fetch_denied_is_missing`: breaker opened by five failures
at time 0, fetch attempted at time 10 (within cooldown). -/
theorem fetch_denied_is_missing_witness :
    (allowCall 10 (applyFailures [0, 0, 0, 0, 0] initialBreaker)).1.1 = false ∧
    fetch (fun _ => .err "fetch_error" "boom") 10
        (applyFailures [0, 0, 0, 0, 0] initialBreaker) =
      (⟨false, none, ["views", "clicks", "conversions"], 0,
        (allowCall 10 (applyFailures [0, 0, 0, 0, 0] initialBreaker)).1.2,
        some ("Circuit breaker denies call: " ++
          ((allowCall 10 (applyFailures [0, 0, 0, 0, 0] initialBreaker)).1.2).getD "None"),
        false⟩,
       (allowCall 10 (applyFailures [0, 0, 0, 0, 0] initialBreaker)).2) :=
  ⟨of_decide_eq_true (by with_unfolding_all rfl),
   (fetch_denied_is_missing (fun _ => .err "fetch_error" "boom") 10
      (applyFailures [0, 0, 0, 0, 0] initialBreaker)
      (of_decide_eq_true (by with_unfolding_all rfl))).1⟩

/-- C7 counterexample: a breaker denial does not always yield
`error_code = circuit_open`. Open the breaker with five failures at time 0,
let the cooldown elapse, exhaust the three HALF_OPEN probes at time 300;
the fourth call is denied with reason `half_open_probe_exhausted`, and
`fetch` then reports that reason, not `circuit_open`, while still returning
the no-adapter-call failure outcome (`attempts = 0`, `success = false`). -/
theorem fetch_denied_error_code_cex :
    (allowCall 300
        (allowCall 300
          (allowCall 300
            (allowCall 300 (applyFailures [0, 0, 0, 0, 0] initialBreaker)).2).2).2).1.1 =
      false ∧
    (fetch (fun _ => .err "fetch_error" "boom") 300
        (allowCall 300
          (allowCall 300
            (allowCall 300 (applyFailures [0, 0, 0, 0, 0] initialBreaker)).2).2).2).1.success =
      false ∧
    (fetch (fun _ => .err "fetch_error" "boom") 300
        (allowCall 300
          (allowCall 300
            (allowCall 300 (applyFailures [0, 0, 0, 0, 0] initialBreaker)).2).2).2).1.attempts =
      0 ∧
    (fetch (fun _ => .err "fetch_error" "boom") 300
        (allowCall 300
          (allowCall 300
            (allowCall 300 (applyFailures [0, 0, 0, 0, 0] initialBreaker)).2).2).2).1.error_code =
      some "half_open_probe_exhausted" :=
  of_decide_eq_true (by with_unfolding_all rfl)

/-- C9: on the partial-data path (at least one but not all platform metrics
None), when `partial_missing` already names exactly the absent metrics — as
`run_reconciliation` forwards from the fetcher's partial-data success — the
classifier first copies the list and then appends each absent metric's name
again, so `missing_fields` lists every missing metric twice. -/
theorem classify_duplicates_missing (cv cc cx : ℕ) (pv pc px : Option ℕ) (eh : ℚ)
    (hnotall : ¬(pv = none ∧ pc = none ∧ px = none))
    (hsome : pv = none ∨ pc = none ∨ px = none) :
    (classify cv cc cx pv pc px eh (canonicalMissing pv pc px)).missing_fields =
      canonicalMissing pv pc px ++ canonicalMissing pv pc px ∧
    ∀ name ∈ canonicalMissing pv pc px,
      ((classify cv cc cx pv pc px eh
        (canonicalMissing pv pc px)).missing_fields).count name = 2 := by
  rcases pv with _ | a <;> rcases pc with _ | b <;> rcases px with _ | c
  · exact absurd ⟨rfl, rfl, rfl⟩ hnotall
  all_goals refine ⟨rfl, ?_⟩
  all_goals intro name hname
  all_goals simp only [canonicalMissing, Option.isSome_none, Option.isSome_some,
    if_false, if_true, Bool.false_eq_true, List.mem_append, List.mem_cons,
    List.not_mem_nil, List.mem_singleton, or_false, false_or,
    List.nil_append, List.append_nil] at hname
  · rcases hname with h | h <;> subst h <;> rfl
  · rcases hname with h | h <;> subst h <;> rfl
  · subst hname; rfl
  · rcases hname with h | h <;> subst h <;> rfl
  · subst hname; rfl
  · subst hname; rfl

/-- Witness for `classify_duplicates_missing`: clicks missing in the
platform fetch, `partial_missing = ["clicks"]`. -/
theorem classify_duplicates_missing_witness :
    ¬((some 5 : Option ℕ) = none ∧ (none : Option ℕ) = none ∧
        (some 7 : Option ℕ) = none) ∧
    ((some 5 : Option ℕ) = none ∨ (none : Option ℕ) = none ∨
        (some 7 : Option ℕ) = none) ∧
    ((classify 1 2 3 (some 5) none (some 7) 0
        (canonicalMissing (some 5) none (some 7))).missing_fields =
      canonicalMissing (some 5) none (some 7) ++ canonicalMissing (some 5) none (some 7) ∧
     ∀ name ∈ canonicalMissing (some 5) none (some 7),
       ((classify 1 2 3 (some 5) none (some 7) 0
         (canonicalMissing (some 5) none (some 7))).missing_fields).count name = 2) :=
  ⟨of_decide_eq_true (by with_unfolding_all rfl),
   of_decide_eq_true (by with_unfolding_all rfl),
   classify_duplicates_missing 1 2 3 (some 5) none (some 7) 0
     (of_decide_eq_true (by with_unfolding_all rfl))
     (of_decide_eq_true (by with_unfolding_all rfl))⟩

/-- C1 (amended): with full platform data, if any metric has a positive raw
discrepancy (claimed above growth-adjusted platform) with
`diff_pct ≥ overclaim_threshold`, the classifier returns
AFFILIATE_OVERCLAIMED with trust event OVERCLAIM — taking precedence over
tier classification from `max_discrepancy_pct` — and the discrepancy level
is CRITICAL exactly when some metric with a *positive* discrepancy has
`diff_pct ≥ overclaim_critical` (else HIGH). -/
theorem classify_overclaim_precedence (cv cc cx a b c : ℕ) (eh : ℚ) (pm : List String)
    (hov :
      (overclaimHit (classify cv cc cx (some a) (some b) (some c) eh pm).views_discrepancy
          (classify cv cc cx (some a) (some b) (some c) eh pm).views_diff_pct
          overclaim_threshold_pct ||
        overclaimHit (classify cv cc cx (some a) (some b) (some c) eh pm).clicks_discrepancy
          (classify cv cc cx (some a) (some b) (some c) eh pm).clicks_diff_pct
          overclaim_threshold_pct ||
        overclaimHit (classify cv cc cx (some a) (some b) (some c) eh pm).conversions_discrepancy
          (classify cv cc cx (some a) (some b) (some c) eh pm).conversions_diff_pct
          overclaim_threshold_pct) = true) :
    (classify cv cc cx (some a) (some b) (some c) eh pm).status =
      .AFFILIATE_OVERCLAIMED ∧
    (classify cv cc cx (some a) (some b) (some c) eh pm).trust_event =
      some .OVERCLAIM ∧
    (classify cv cc cx (some a) (some b) (some c) eh pm).discrepancy_level =
      some
        (if (overclaimHit (classify cv cc cx (some a) (some b) (some c) eh pm).views_discrepancy
              (classify cv cc cx (some a) (some b) (some c) eh pm).views_diff_pct
              overclaim_critical_pct ||
            overclaimHit (classify cv cc cx (some a) (some b) (some c) eh pm).clicks_discrepancy
              (classify cv cc cx (some a) (some b) (some c) eh pm).clicks_diff_pct
              overclaim_critical_pct ||
            overclaimHit (classify cv cc cx (some a) (some b) (some c) eh pm).conversions_discrepancy
              (classify cv cc cx (some a) (some b) (some c) eh pm).conversions_diff_pct
              overclaim_critical_pct) = true
         then "CRITICAL" else "HIGH") := by
  simp only [classify] at hov ⊢
  rw [hov]
  simp

/-- Witness for `classify_overclaim_precedence` on the spec's overclaim test
vector: claimed (250, 35, 4), platform (100, 10, 1), elapsed 0. -/
theorem classify_overclaim_precedence_witness :
    (overclaimHit (classify 250 35 4 (some 100) (some 10) (some 1) 0 []).views_discrepancy
        (classify 250 35 4 (some 100) (some 10) (some 1) 0 []).views_diff_pct
        overclaim_threshold_pct ||
      overclaimHit (classify 250 35 4 (some 100) (some 10) (some 1) 0 []).clicks_discrepancy
        (classify 250 35 4 (some 100) (some 10) (some 1) 0 []).clicks_diff_pct
        overclaim_threshold_pct ||
      overclaimHit (classify 250 35 4 (some 100) (some 10) (some 1) 0 []).conversions_discrepancy
        (classify 250 35 4 (some 100) (some 10) (some 1) 0 []).conversions_diff_pct
        overclaim_threshold_pct) = true ∧
    (classify 250 35 4 (some 100) (some 10) (some 1) 0 []).status =
      ReconciliationStatus.AFFILIATE_OVERCLAIMED :=
  ⟨of_decide_eq_true (by with_unfolding_all rfl),
   (classify_overclaim_precedence 250 35 4 100 10 1 0 []
     (of_decide_eq_true (by with_unfolding_all rfl))).1⟩

/-- C1 counterexample: claimed (130, 40, 100) against platform
(100, 100, 100) at elapsed 0. Views overclaim by 30% triggers
AFFILIATE_OVERCLAIMED; clicks has `diff_pct = 0.60 ≥ overclaim_critical`
but its discrepancy is negative (underclaim), so the code classifies the
level as HIGH — the claim's rule "CRITICAL if any `diff_pct ≥
overclaim_critical`" predicts CRITICAL. -/
theorem classify_overclaim_critical_cex :
    (classify 130 40 100 (some 100) (some 100) (some 100) 0 []).status =
      ReconciliationStatus.AFFILIATE_OVERCLAIMED ∧
    (classify 130 40 100 (some 100) (some 100) (some 100) 0 []).views_discrepancy = 30 ∧
    (classify 130 40 100 (some 100) (some 100) (some 100) 0 []).views_diff_pct =
      some (3/10) ∧
    (classify 130 40 100 (some 100) (some 100) (some 100) 0 []).clicks_diff_pct =
      some (3/5) ∧
    overclaim_critical_pct ≤ 3/5 ∧
    (classify 130 40 100 (some 100) (some 100) (some 100) 0 []).discrepancy_level =
      some "HIGH" :=
  of_decide_eq_true (by with_unfolding_all rfl)

/-! ### Queue order and invariant lemmas -/

theorem keyLt_irrefl (a : QItem) : ¬ keyLt a a := by
  unfold keyLt
  rintro (h | ⟨-, h⟩) <;> exact lt_irrefl _ h

theorem keyLt_trans {a b c : QItem} (h1 : keyLt a b) (h2 : keyLt b c) : keyLt a c := by
  unfold keyLt at *
  rcases h1 with h1 | ⟨e1, s1⟩ <;> rcases h2 with h2 | ⟨e2, s2⟩
  · exact Or.inl (lt_trans h1 h2)
  · exact Or.inl (e2 ▸ h1)
  · exact Or.inl (e1 ▸ h2)
  · exact Or.inr ⟨e1.trans e2, lt_trans s1 s2⟩

theorem keyLt_asymm {a b : QItem} (h : keyLt a b) : ¬ keyLt b a :=
  fun h2 => keyLt_irrefl a (keyLt_trans h h2)

theorem keyLt_of_ne_seq {a b : QItem} (hne : a.seq ≠ b.seq) (h : ¬ keyLt b a) :
    keyLt a b := by
  unfold keyLt at *
  push_neg at h
  obtain ⟨h1, h2⟩ := h
  rcases lt_trichotomy a.priority_value b.priority_value with hp | hp | hp
  · exact Or.inl hp
  · refine Or.inr ⟨hp, ?_⟩
    rcases lt_trichotomy a.seq b.seq with hs | hs | hs
    · exact hs
    · exact absurd hs hne
    · exact absurd hs (not_lt.mpr (h2 hp.symm))
  · exact absurd hp (not_lt.mpr h1)

theorem foldlMin_spec (t : List QItem) :
    ∀ acc : QItem,
      (t.foldl (fun acc i => if keyLt i acc then i else acc) acc = acc ∨
        t.foldl (fun acc i => if keyLt i acc then i else acc) acc ∈ t) ∧
      (t.foldl (fun acc i => if keyLt i acc then i else acc) acc = acc ∨
        keyLt (t.foldl (fun acc i => if keyLt i acc then i else acc) acc) acc) ∧
      ∀ y ∈ t, ¬ keyLt y (t.foldl (fun acc i => if keyLt i acc then i else acc) acc) := by
  induction t with
  | nil => intro acc; exact ⟨Or.inl rfl, Or.inl rfl, by simp⟩
  | cons hd tl ih =>
    intro acc
    simp only [List.foldl_cons]
    by_cases hha : keyLt hd acc
    · rw [if_pos hha]
      obtain ⟨hmem, hle, hmin⟩ := ih hd
      refine ⟨?_, ?_, ?_⟩
      · rcases hmem with he | hm
        · rw [he]; exact Or.inr (List.mem_cons_self hd tl)
        · exact Or.inr (List.mem_cons_of_mem _ hm)
      · rcases hle with he | hlt
        · rw [he]; exact Or.inr hha
        · exact Or.inr (keyLt_trans hlt hha)
      · intro y hy
        rcases List.mem_cons.mp hy with rfl | hy'
        · rcases hle with he | hlt
          · rw [he]; exact keyLt_irrefl y
          · exact keyLt_asymm hlt
        · exact hmin y hy'
    · rw [if_neg hha]
      obtain ⟨hmem, hle, hmin⟩ := ih acc
      refine ⟨?_, ?_, ?_⟩
      · rcases hmem with he | hm
        · exact Or.inl he
        · exact Or.inr (List.mem_cons_of_mem _ hm)
      · exact hle
      · intro y hy
        rcases List.mem_cons.mp hy with rfl | hy'
        · intro hk
          rcases hle with he | hlt
          · exact hha (he ▸ hk)
          · exact hha (keyLt_trans hk hlt)
        · exact hmin y hy'

theorem minItem_spec {l : List QItem} {m : QItem} (h : minItem l = some m) :
    m ∈ l ∧ ∀ y ∈ l, ¬ keyLt y m := by
  cases l with
  | nil => simp [minItem] at h
  | cons hd tl =>
    simp only [minItem, Option.some.injEq] at h
    subst h
    obtain ⟨hmem, hle, hmin⟩ := foldlMin_spec tl hd
    refine ⟨?_, ?_⟩
    · rcases hmem with he | hm
      · rw [he]; exact List.mem_cons_self hd tl
      · exact List.mem_cons_of_mem _ hm
    · intro y hy
      rcases List.mem_cons.mp hy with rfl | hy'
      · rcases hle with he | hlt
        · rw [he]; exact keyLt_irrefl y
        · exact keyLt_asymm hlt
      · exact hmin y hy'

theorem mem_promote_ready {now : ℚ} {s : QueueState}
    (hwf : ∀ i ∈ s.ready, i.ready_at ≤ now) (y : QItem) :
    y ∈ (promoteScheduled now s).ready ↔ y ∈ allItems s ∧ y.ready_at ≤ now := by
  simp only [promoteScheduled, allItems, List.mem_append, List.mem_filter,
    decide_eq_true_eq]
  constructor
  · rintro (hy | ⟨hy, hle⟩)
    · exact ⟨Or.inl hy, hwf y hy⟩
    · exact ⟨Or.inr hy, hle⟩
  · rintro ⟨hy | hy, hle⟩
    · exact Or.inl hy
    · exact Or.inr ⟨hy, hle⟩

theorem promote_perm (now : ℚ) (s : QueueState) :
    allItems (promoteScheduled now s) ~ allItems s := by
  simp only [promoteScheduled, allItems]
  rw [List.append_assoc]
  exact (List.filter_append_perm _ s.sched).append_left s.ready

theorem seq_ne_symm : Symmetric (fun a b : QItem => a.seq ≠ b.seq) :=
  fun _ _ h => Ne.symm h

theorem QWF_empty (t : ℚ) : QWF t emptyQueue := by
  refine ⟨?_, ?_, ?_⟩ <;> simp [emptyQueue, allItems]

theorem QWF_mono {t t' : ℚ} {s : QueueState} (h : t ≤ t') (hwf : QWF t s) : QWF t' s :=
  ⟨fun i hi => le_trans (hwf.1 i hi) h, hwf.2.1, hwf.2.2⟩

theorem QWF_enqueue {now : ℚ} {s : QueueState} (label : String) (delay : ℚ)
    (hwf : QWF now s) : QWF now (enqueue now label delay s) := by
  obtain ⟨hready, hseq, hpair⟩ := hwf
  unfold enqueue
  split
  · exact ⟨hready, hseq, hpair⟩
  cases hpm : priorityMap label with
  | none => exact ⟨hready, hseq, hpair⟩
  | some pv =>
    simp only
    split
    · -- new item pushed onto the ready heap
      rename_i hra
      refine ⟨?_, ?_, ?_⟩
      · intro i hi
        rcases List.mem_cons.mp hi with rfl | hi'
        · exact hra
        · exact hready i hi'
      · intro i hi
        simp only [allItems, List.cons_append, List.mem_cons] at hi
        rcases hi with rfl | hi'
        · exact le_refl _
        · exact le_trans (hseq i hi') (Nat.le_succ _)
      · simp only [allItems, List.cons_append]
        refine List.Pairwise.cons ?_ hpair
        intro y hy
        have := hseq y hy
        show s.seqCtr + 1 ≠ y.seq
        omega
    · -- new item pushed onto the scheduled heap
      refine ⟨hready, ?_, ?_⟩
      · intro i hi
        simp only [allItems, List.mem_append, List.mem_cons] at hi
        rcases hi with hi' | rfl | hi'
        · exact le_trans (hseq i (List.mem_append_left _ hi')) (Nat.le_succ _)
        · exact le_refl _
        · exact le_trans (hseq i (List.mem_append_right _ hi')) (Nat.le_succ _)
      · have hperm : List.Perm
            (allItems { s with
              sched := ⟨pv, s.seqCtr + 1, now + max 0 delay⟩ :: s.sched,
              seqCtr := s.seqCtr + 1 })
            ((⟨pv, s.seqCtr + 1, now + max 0 delay⟩ : QItem) :: allItems s) := by
          simp only [allItems]
          exact List.perm_middle
        rw [(hperm.pairwise_iff fun {_ _} h => Ne.symm h)]
        refine List.Pairwise.cons ?_ hpair
        intro y hy
        have := hseq y hy
        show s.seqCtr + 1 ≠ y.seq
        omega

theorem QWF_promote {now : ℚ} {s : QueueState} (hwf : QWF now s) :
    QWF now (promoteScheduled now s) := by
  obtain ⟨hready, hseq, hpair⟩ := hwf
  refine ⟨?_, ?_, ?_⟩
  · intro i hi
    exact ((mem_promote_ready hready i).mp hi).2
  · intro i hi
    exact hseq i ((promote_perm now s).subset hi)
  · exact ((promote_perm now s).pairwise_iff fun {_ _} h => Ne.symm h).mpr hpair

theorem QWF_dequeue {now : ℚ} {s : QueueState} (hwf : QWF now s) :
    QWF now (dequeue now s).2 := by
  have hwf' := QWF_promote hwf
  simp only [dequeue]
  cases hmi : minItem (promoteScheduled now s).ready with
  | none => simp only [hmi]; exact hwf'
  | some m =>
    simp only [hmi]
    obtain ⟨hready, hseq, hpair⟩ := hwf'
    have hsub : List.Sublist ((promoteScheduled now s).ready.erase m)
        (promoteScheduled now s).ready :=
      List.erase_sublist m (promoteScheduled now s).ready
    refine ⟨?_, ?_, ?_⟩
    · intro i hi
      exact hready i (hsub.subset hi)
    · intro i hi
      simp only [allItems, List.mem_append] at hi
      rcases hi with hi' | hi'
      · exact hseq i (List.mem_append_left _ (hsub.subset hi'))
      · exact hseq i (List.mem_append_right _ hi')
    · exact List.Pairwise.sublist (hsub.append_right _) hpair

theorem QWF_foldl (now : ℚ) :
    ∀ (ops : List (ℚ × QOp)) (t0 : ℚ) (s : QueueState),
      QWF t0 s →
      List.Chain' (· ≤ ·) (t0 :: ops.map Prod.fst) →
      (∀ u ∈ ops.map Prod.fst, u ≤ now) → t0 ≤ now →
      QWF now (ops.foldl stepOp s) := by
  intro ops
  induction ops with
  | nil =>
    intro t0 s hwf _ _ ht0
    exact QWF_mono ht0 hwf
  | cons hd tl ih =>
    rcases hd with ⟨t, op⟩
    intro t0 s hwf hchain hbound ht0
    simp only [List.map_cons, List.foldl_cons] at *
    have h01 : t0 ≤ t := (List.chain'_cons.mp hchain).1
    have hwf1 : QWF t s := QWF_mono h01 hwf
    have hstep : QWF t (stepOp s (t, op)) := by
      cases op with
      | enq label delay => exact QWF_enqueue label delay hwf1
      | deq => exact QWF_dequeue hwf1
    exact ih t (stepOp s (t, op)) hstep (List.chain'_cons.mp hchain).2
      (fun u hu => hbound u (List.mem_cons_of_mem _ hu))
      (hbound t (List.mem_cons_self _ _))

/-- C4: for every timestamped sequence of enqueue/dequeue operations run
against the wall clock (timestamps nondecreasing and not after `now`), a
successful dequeue at time `now` returns an item that is already due
(`ready_at ≤ now`) and is the `(priority_value, seq)`-least among *all*
queued items that are due — so a far-future scheduled item, however high
its priority, never displaces or starves a currently-ready item. -/
theorem dequeue_returns_ready_min (ops : List (ℚ × QOp)) (now : ℚ) (m : QItem)
    (hchain : List.Chain' (· ≤ ·) (ops.map Prod.fst))
    (hbound : ∀ u ∈ ops.map Prod.fst, u ≤ now)
    (hdq : (dequeue now (runTrace ops)).1 = some m) :
    m.ready_at ≤ now ∧
    m ∈ allItems (runTrace ops) ∧
    ∀ y ∈ allItems (runTrace ops), y.ready_at ≤ now → y = m ∨ keyLt m y := by
  have hwf : QWF now (runTrace ops) := by
    cases ops with
    | nil => exact QWF_empty now
    | cons hd tl =>
      refine QWF_foldl now (hd :: tl) hd.1 emptyQueue (QWF_empty hd.1) ?_ hbound
        (hbound hd.1 (by simp))
      rw [List.map_cons]
      exact List.chain'_cons.mpr ⟨le_refl _, by simpa using hchain⟩
  have hwf' : QWF now (promoteScheduled now (runTrace ops)) := QWF_promote hwf
  simp only [dequeue] at hdq
  cases hmi : minItem (promoteScheduled now (runTrace ops)).ready with
  | none => rw [hmi] at hdq; simp at hdq
  | some m0 =>
    rw [hmi] at hdq
    simp only [Option.some.injEq] at hdq
    subst hdq
    obtain ⟨hmem', hmin'⟩ := minItem_spec hmi
    have hmm := (mem_promote_ready hwf.1 m0).mp hmem'
    refine ⟨hmm.2, hmm.1, ?_⟩
    intro y hy hyle
    by_cases hye : y = m0
    · exact Or.inl hye
    · right
      have hy' : y ∈ (promoteScheduled now (runTrace ops)).ready :=
        (mem_promote_ready hwf.1 y).mpr ⟨hy, hyle⟩
      have hnk : ¬ keyLt y m0 := hmin' y hy'
      have hseq : y.seq ≠ m0.seq := by
        have hm_all : m0 ∈ allItems (promoteScheduled now (runTrace ops)) :=
          List.mem_append_left _ hmem'
        have hy_all : y ∈ allItems (promoteScheduled now (runTrace ops)) :=
          List.mem_append_left _ hy'
        exact hwf'.2.2.forall seq_ne_symm hy_all hm_all hye
      exact keyLt_of_ne_seq (Ne.symm hseq) hnk

/-- Witness for `dequeue_returns_ready_min`: a far-future high-priority job
(enqueued first, delay 1000s) and a currently-ready low-priority job;
dequeue at time 1 returns the ready low-priority item. -/
theorem dequeue_returns_ready_min_witness :
    List.Chain' (· ≤ ·)
      (([((0 : ℚ), QOp.enq "high" 1000), ((0 : ℚ), QOp.enq "low" 0)]).map Prod.fst) ∧
    (∀ u ∈ ([((0 : ℚ), QOp.enq "high" 1000), ((0 : ℚ), QOp.enq "low" 0)]).map Prod.fst,
      u ≤ (1 : ℚ)) ∧
    (dequeue 1 (runTrace [((0 : ℚ), QOp.enq "high" 1000), ((0 : ℚ), QOp.enq "low" 0)])).1 =
      some ⟨10, 2, 0⟩ ∧
    (⟨10, 2, 0⟩ : QItem).ready_at ≤ (1 : ℚ) ∧
    (⟨10, 2, 0⟩ : QItem) ∈
      allItems (runTrace [((0 : ℚ), QOp.enq "high" 1000), ((0 : ℚ), QOp.enq "low" 0)]) ∧
    ∀ y ∈ allItems (runTrace [((0 : ℚ), QOp.enq "high" 1000), ((0 : ℚ), QOp.enq "low" 0)]),
      y.ready_at ≤ (1 : ℚ) → y = ⟨10, 2, 0⟩ ∨ keyLt ⟨10, 2, 0⟩ y := by
  have hchain : List.Chain' (· ≤ ·)
      (([((0 : ℚ), QOp.enq "high" 1000), ((0 : ℚ), QOp.enq "low" 0)]).map Prod.fst) := by
    simp only [List.map_cons, List.map_nil]
    exact List.chain'_cons.mpr ⟨le_refl _, List.chain'_singleton _⟩
  have hbound : ∀ u ∈ ([((0 : ℚ), QOp.enq "high" 1000),
      ((0 : ℚ), QOp.enq "low" 0)]).map Prod.fst, u ≤ (1 : ℚ) := by
    intro u hu
    simp only [List.map_cons, List.map_nil, List.mem_cons, List.not_mem_nil,
      or_false, or_self] at hu
    subst hu
    exact of_decide_eq_true (by with_unfolding_all rfl)
  have hdq : (dequeue 1
      (runTrace [((0 : ℚ), QOp.enq "high" 1000), ((0 : ℚ), QOp.enq "low" 0)])).1 =
      some ⟨10, 2, 0⟩ :=
    of_decide_eq_true (by with_unfolding_all rfl)
  obtain ⟨h1, h2, h3⟩ :=
    dequeue_returns_ready_min [((0 : ℚ), QOp.enq "high" 1000), ((0 : ℚ), QOp.enq "low" 0)]
      1 ⟨10, 2, 0⟩ hchain hbound hdq
  exact ⟨hchain, hbound, hdq, h1, h2, h3⟩

end AffiliatePlatform
